import Mathlib

/-!
Verification of the kpf forward-session manager and the service-table
row-projection engine, shallowly embedded from the Go sources
(`internal/portforward/manager.go`, `internal/tui/service_table.go`,
`internal/tui/commands.go`).  External collaborators (the Kubernetes API,
the TCP port probes, the SPDY tunnel) are modelled as an explicit
environment record consumed by one `start` call; the three-way race at the
end of `StartForwardWithLocalPort` (ready / context cancelled / 10-second
timeout) is modelled by the environment choosing which `select` branch
fires.  Wall-clock timestamps (`StartedAt`, `FailureTime`) are not
modelled; only the states, reasons and messages the claims mention are.
-/

namespace Kpf

/-- Lifecycle of a forward session.  Modelled from the spec: the Go
`k8s.ForwardingState` enum declaration is not among the provided sources
(only an older revision of the types file is), so the constructors follow
§3/§4.2 of the spec and the ordinal order follows the comment in
`service_table.go` `SortBy` ("Active ports first when ascending, then
pending, then failed, then inactive"). -/
inductive ForwardingState where
  | active
  | pending
  | failed
  | inactive
deriving DecidableEq, Repr

/-- Numeric ordinal used by the `status` sort comparator (`state_i < state_j`
on the Go enum ints). -/
def stateOrd : ForwardingState → Nat
  | .active => 0
  | .pending => 1
  | .failed => 2
  | .inactive => 3

/-- `ForwardInfo` from `manager.go` (lines 20-31).  The two channels are
represented by the single flag `HasChans`: it is set exactly when the Go
code assigns `StopChan`/`ReadyChan` (line 221-222), which is what
`StopForward` tests before closing the stop channel.  Timestamps are
omitted (see module comment). -/
structure ForwardInfo where
  Namespace : String
  Service : String
  RemotePort : Nat
  LocalPort : Nat
  HasChans : Bool
  ForwardingState : Kpf.ForwardingState
  FailureReason : String
deriving DecidableEq, Repr

/-- The manager's session table (`Manager.forwards`), as an association
list keyed by the formatted key string. -/
abbrev ManagerState := List (String × ForwardInfo)

/-- `fmt.Sprintf("%s/%s:%d", namespace, serviceName, remotePort)`. -/
def forwardKey (ns svc : String) (remotePort : Nat) : String :=
  s!"{ns}/{svc}:{remotePort}"

/-- Map lookup on the session table. -/
def lookupFw : ManagerState → String → Option ForwardInfo
  | [], _ => none
  | (k, fw) :: rest, key => if k = key then some fw else lookupFw rest key

/-- `delete(m.forwards, key)`. -/
def eraseFw (m : ManagerState) (key : String) : ManagerState :=
  m.filter (fun p => !(p.1 == key))

/-- `m.forwards[key] = fw` (insert or overwrite). -/
def storeFw (m : ManagerState) (key : String) (fw : ForwardInfo) : ManagerState :=
  (key, fw) :: eraseFw m key

/-- Observable side effects of one `StartForwardWithLocalPort` call, in
program order of the calling goroutine.  `spawnedTunnel` marks the `go
func() {...}` statement (line 226) that hands the forward to the tunnel
provider; `insertedPending` marks the table store at lines 285-288. -/
inductive StartEvent where
  | probedPort (port : Nat)
  | allocatedPort (port : Nat)
  | insertedFailed (key reason : String)
  | spawnedTunnel (localPort remotePort : Nat)
  | insertedPending (key : String)
  | markedActive (key : String)
  | markedFailed (key reason : String)
  | closedStop (key : String)
deriving DecidableEq, Repr

/-- A pod returned by the Kubernetes API. -/
structure PodItem where
  name : String
deriving DecidableEq, Repr

/-- `address.TargetRef`. -/
structure TargetRef where
  name : String
deriving DecidableEq, Repr

/-- One address of an endpoint subset. -/
structure EndpointAddress where
  targetRef : Option TargetRef
deriving DecidableEq, Repr

/-- One subset of a service's endpoints. -/
structure EndpointSubset where
  addresses : List EndpointAddress
deriving DecidableEq, Repr

/-- `Endpoints(namespace).Get(serviceName)` result. -/
structure Endpoints where
  subsets : List EndpointSubset
deriving DecidableEq, Repr

/-- Which branch of the final `select` (lines 290-313) fires: the tunnel
provider closed `readyChan`, the caller's context was cancelled, or the
10-second timer elapsed first. -/
inductive TunnelOutcome where
  | ready
  | ctxCancelled
  | timeout
deriving DecidableEq, Repr

/-- The external world consumed by a single `start` call: the Kubernetes
API answers, the local port probes, the SPDY round-tripper construction
and the outcome of the readiness race. -/
structure StartEnv where
  listPods : Except String (List PodItem)
  getEndpoints : Except String Endpoints
  getPod : Except String PodItem
  portAvailable : Nat → Bool
  freePort : Except String Nat
  roundTripper : Except String Unit
  tunnelOutcome : TunnelOutcome

deriving instance DecidableEq for Except

/-- Return value of one `start` call: the new table, the Go
`(int, error)` pair, and the emitted event trace. -/
structure StartResult where
  state : ManagerState
  result : Except String Nat
  events : List StartEvent
deriving DecidableEq, Repr

/-- An early-failure `return` in `StartForwardWithLocalPort`: record the
failure on the session (`failed` state + reason) and store it in the
table, as every early error path of the Go code does. -/
def failStore (m : ManagerState) (key : String) (fw : ForwardInfo)
    (reason errMsg : String) (events : List StartEvent) : StartResult :=
  { state := storeFw m key { fw with ForwardingState := .failed, FailureReason := reason }
    result := .error errMsg
    events := events ++ [.insertedFailed key reason] }

/-- The base `ForwardInfo` built at manager.go lines 62-69, before any
port or channel is known. -/
def initialFw (ns svc : String) (remotePort : Nat) : ForwardInfo :=
  { Namespace := ns, Service := svc, RemotePort := remotePort, LocalPort := 0,
    HasChans := false, ForwardingState := .pending, FailureReason := "" }

/-- Round-tripper creation (lines 209-212): on error the Go code returns
without storing anything; otherwise preflight succeeds with the resolved
local port.  Continuation of `startPodCheck`. -/
def startRoundTripper (env : StartEnv) (m : ManagerState)
    (localPort : Nat) (evs : List StartEvent) :
    Except StartResult (Nat × List StartEvent) :=
  match env.roundTripper with
  | .error e =>
    .error { state := m
             result := .error s!"failed to create round tripper: {e}"
             events := evs }
  | .ok _ => .ok (localPort, evs)

/-- Pod-name guard and local-port resolution (lines 149-200), given the
pod list produced by the discovery phase. -/
def startPodCheck (env : StartEnv) (m : ManagerState)
    (ns svc : String) (remotePort preferredLocalPort : Nat) (pods : List PodItem) :
    Except StartResult (Nat × List StartEvent) :=
  let key := forwardKey ns svc remotePort
  let fw := initialFw ns svc remotePort
  match pods with
  | [] =>
    .error (failStore m key fw s!"No pods available for service {svc}"
      s!"no pods available for service {svc}" [])
  | pod :: _ =>
    if pod.name = "" then
      .error (failStore m key fw s!"Pod name is empty for service {svc}"
        s!"pod name is empty for service {svc}" [])
    else
      if preferredLocalPort > 0 then
        if env.portAvailable preferredLocalPort then
          startRoundTripper env m preferredLocalPort [.probedPort preferredLocalPort]
        else
          .error (failStore m key fw s!"Port {preferredLocalPort} is already in use"
            s!"port {preferredLocalPort} is already in use"
            [.probedPort preferredLocalPort])
      else
        match env.freePort with
        | .error e =>
          .error (failStore m key fw s!"Failed to get free port: {e}"
            s!"failed to get free port: {e}" [])
        | .ok p => startRoundTripper env m p [.allocatedPort p]

/-- Everything `StartForwardWithLocalPort` does before the tunnel is
established (lines 50-214): the already-active check, the pod listing
with its endpoints fallback (lines 72-147), then `startPodCheck`.
`.error r` is an early `return` with result `r`; `.ok (localPort, events)`
proceeds to establishment. -/
def startPreflight (env : StartEnv) (m : ManagerState)
    (ns svc : String) (remotePort preferredLocalPort : Nat) :
    Except StartResult (Nat × List StartEvent) :=
  let key := forwardKey ns svc remotePort
  if (lookupFw m key).isSome then
    .error { state := m
             result := .error s!"port forwarding already active for {key}"
             events := [] }
  else
    let fw := initialFw ns svc remotePort
    match env.listPods with
    | .error e =>
      .error (failStore m key fw s!"Failed to list pods: {e}" s!"failed to list pods: {e}" [])
    | .ok pods0 =>
      if pods0.isEmpty then
        match env.getEndpoints with
        | .error e =>
          .error (failStore m key fw s!"Failed to get endpoints: {e}"
            s!"failed to get endpoints: {e}" [])
        | .ok eps =>
          match eps.subsets with
          | [] =>
            .error (failStore m key fw s!"No pods found for service {svc}"
              s!"no pods found for service {svc}" [])
          | subset :: _ =>
            match subset.addresses with
            | [] =>
              .error (failStore m key fw s!"No pods found for service {svc}"
                s!"no pods found for service {svc}" [])
            | addr :: _ =>
              match addr.targetRef with
              | none =>
                .error (failStore m key fw s!"No target reference found for service {svc}"
                  s!"no target reference found for service {svc}" [])
              | some tref =>
                if tref.name = "" then
                  .error (failStore m key fw s!"Empty pod name for service {svc}"
                    s!"empty pod name for service {svc}" [])
                else
                  match env.getPod with
                  | .error e =>
                    .error (failStore m key fw s!"Failed to get pod: {e}"
                      s!"failed to get pod: {e}" [])
                  | .ok pod =>
                    startPodCheck env m ns svc remotePort preferredLocalPort [pod]
      else
        startPodCheck env m ns svc remotePort preferredLocalPort pods0

/-- Timeout reason string stored by the timeout branch (line 308). -/
def timeoutReason : String := "Timeout waiting for port forward to be ready"

/-- Events of the final `select` (lines 290-313): readiness marks the
session active; cancellation and timeout mark it failed and close the
stop channel. -/
def waitEvents (outcome : TunnelOutcome) (key : String) : List StartEvent :=
  match outcome with
  | .ready => [.markedActive key]
  | .ctxCancelled => [.markedFailed key "Context cancelled", .closedStop key]
  | .timeout => [.markedFailed key timeoutReason, .closedStop key]

/-- `Manager.StartForwardWithLocalPort` (manager.go lines 50-314).  After
preflight, the Go code spawns the tunnel goroutine (line 226), stores the
pending session (lines 285-288) and then waits on the three-way
`select`. -/
def startForwardWithLocalPort (env : StartEnv) (m : ManagerState)
    (ns svc : String) (remotePort preferredLocalPort : Nat) : StartResult :=
  let key := forwardKey ns svc remotePort
  match startPreflight env m ns svc remotePort preferredLocalPort with
  | .error r => r
  | .ok (localPort, evs0) =>
    let fw : ForwardInfo :=
      { Namespace := ns, Service := svc, RemotePort := remotePort, LocalPort := localPort,
        HasChans := true, ForwardingState := .pending, FailureReason := "" }
    let evs := evs0 ++ [.spawnedTunnel localPort remotePort, .insertedPending key]
    let m1 := storeFw m key fw
    match env.tunnelOutcome with
    | .ready =>
      { state := storeFw m1 key { fw with ForwardingState := .active }
        result := .ok localPort
        events := evs ++ waitEvents .ready key }
    | .ctxCancelled =>
      { state := storeFw m1 key
          { fw with ForwardingState := .failed, FailureReason := "Context cancelled" }
        result := .error "context cancelled"
        events := evs ++ waitEvents .ctxCancelled key }
    | .timeout =>
      { state := storeFw m1 key
          { fw with ForwardingState := .failed, FailureReason := timeoutReason }
        result := .error "timeout waiting for port forward to be ready"
        events := evs ++ waitEvents .timeout key }

/-- `Manager.StartForward` delegates with no preferred local port. -/
def startForward (env : StartEnv) (m : ManagerState)
    (ns svc : String) (remotePort : Nat) : StartResult :=
  startForwardWithLocalPort env m ns svc remotePort 0

/-- Result of `StopForward`: the new table and the emitted events. -/
structure StopResult where
  state : ManagerState
  events : List StartEvent
deriving DecidableEq, Repr

/-- `Manager.StopForward` (lines 316-333): if the key is present, close
its stop channel (when one was ever created) and delete the entry;
otherwise a no-op. -/
def stopForward (m : ManagerState) (ns svc : String) (remotePort : Nat) : StopResult :=
  let key := forwardKey ns svc remotePort
  match lookupFw m key with
  | none => { state := m, events := [] }
  | some fw =>
    { state := eraseFw m key
      events := if fw.HasChans then [.closedStop key] else [] }

/-- `Manager.IsForwarding` (lines 353-360): pure key-presence test. -/
def isForwarding (m : ManagerState) (ns svc : String) (remotePort : Nat) : Bool :=
  (lookupFw m (forwardKey ns svc remotePort)).isSome

/-- `Manager.GetLocalPort` (lines 362-371). -/
def getLocalPort (m : ManagerState) (ns svc : String) (remotePort : Nat) : Nat :=
  match lookupFw m (forwardKey ns svc remotePort) with
  | some fw => fw.LocalPort
  | none => 0

/-- The failed-state branch of the TUI's `startPortForward`
(`commands.go` lines 123-130): clear the stale failed entry with
`StopForward`, then call `StartForwardWithLocalPort` with the service
port as the preferred local port. -/
def retryFailedForward (env : StartEnv) (m : ManagerState)
    (ns svc : String) (port : Nat) : StartResult :=
  let stopped := stopForward m ns svc port
  startForwardWithLocalPort env stopped.state ns svc port port

/-- A service port as used by `service_table.go`.  Modelled from the spec:
the current `k8s` types file is absent from the sources (only an older
revision predating `ForwardingState` is present); fields follow the
accesses in `service_table.go` and §3 of the spec. -/
structure PortInfo where
  Name : String
  Port : Nat
  TargetPort : Nat
  Protocol : String
  ForwardingState : Kpf.ForwardingState
  ForwardingPort : Nat
deriving DecidableEq, Repr

/-- The parts of the embedded `corev1.Service` that `SetServices` reads. -/
structure IngressPoint where
  ip : String
  hostname : String
deriving DecidableEq, Repr

/-- Cluster-assigned service data (`svc.Service` may be nil). -/
structure ServiceMeta where
  clusterIP : String
  externalIPs : List String
  ingress : List IngressPoint
deriving DecidableEq, Repr

/-- `k8s.ServiceInfo` as consumed by the table; the embedded service
object is optional exactly as the Go pointer is. -/
structure ServiceInfo where
  Name : String
  Namespace : String
  «Type» : String
  Ports : List PortInfo
  Meta : Option ServiceMeta
deriving DecidableEq, Repr

/-- Cluster-IP column derivation in `SetServices` (lines 82-85). -/
def clusterIPOf (svc : ServiceInfo) : String :=
  match svc.Meta with
  | some sm =>
    if sm.clusterIP ≠ "" ∧ sm.clusterIP ≠ "None" then sm.clusterIP else "<none>"
  | none => "<none>"

/-- External-IP column derivation in `SetServices` (lines 88-99). -/
def externalIPOf (svc : ServiceInfo) : String :=
  match svc.Meta with
  | none => "<none>"
  | some sm =>
    match sm.ingress with
    | ing :: _ =>
      if ing.ip ≠ "" then ing.ip
      else if ing.hostname ≠ "" then ing.hostname
      else "<none>"
    | [] =>
      match sm.externalIPs with
      | ip :: _ => ip
      | [] => "<none>"

/-- `ServiceTableRow` (service_table.go lines 13-29).  The `Age` column is
presentation-only (derived from the wall clock, read by no filter, sort or
selection logic) and is omitted, as are the `ServiceData`/`PortInfo`
back-references. -/
structure ServiceTableRow where
  Namespace : String
  Name : String
  «Type» : String
  ClusterIP : String
  ExternalIP : String
  PortName : String
  Port : Nat
  Protocol : String
  ForwardingState : Kpf.ForwardingState
  ForwardingPort : Nat
  Selected : Bool
deriving DecidableEq, Repr

/-- Row expansion for one service (lines 101-147): one row per port, or a
placeholder row for a port-less service. -/
def rowsOfService (svc : ServiceInfo) : List ServiceTableRow :=
  let clusterIP := clusterIPOf svc
  let externalIP := externalIPOf svc
  match svc.Ports with
  | [] =>
    [{ Namespace := svc.Namespace, Name := svc.Name, «Type» := svc.«Type»,
       ClusterIP := clusterIP, ExternalIP := externalIP, PortName := "<none>",
       Port := 0, Protocol := "", ForwardingState := .inactive, ForwardingPort := 0,
       Selected := false }]
  | ports =>
    ports.map (fun port =>
      { Namespace := svc.Namespace, Name := svc.Name, «Type» := svc.«Type»,
        ClusterIP := clusterIP, ExternalIP := externalIP,
        PortName := if port.Name = "" then "-" else port.Name,
        Port := port.Port, Protocol := port.Protocol,
        ForwardingState := port.ForwardingState, ForwardingPort := port.ForwardingPort,
        Selected := false })

/-- The full row rebuild of `SetServices` (lines 60-148). -/
def buildRows : List ServiceInfo → List ServiceTableRow
  | [] => []
  | svc :: rest => rowsOfService svc ++ buildRows rest

/-- `ServiceTable` (lines 32-41); the raw `services` snapshot is omitted
(it is only re-read by the suggestion helper, not by any table
operation). -/
structure ServiceTable where
  rows : List ServiceTableRow
  filteredRows : List ServiceTableRow
  selectedRow : Int
  width : Int
  height : Int
  offset : Int
  filters : List (String × String)
deriving Repr

/-- `NewServiceTable` (lines 44-54). -/
def newServiceTable : ServiceTable :=
  { rows := [], filteredRows := [], selectedRow := 0, width := 120, height := 30,
    offset := 0, filters := [] }

/-- `getActiveRows` (lines 666-671). -/
def getActiveRows (t : ServiceTable) : List ServiceTableRow :=
  if t.filters.length > 0 then t.filteredRows else t.rows

/-- `strings.Contains`. -/
def strContains (s sub : String) : Bool :=
  decide (sub.toList <:+: s.toList)

/-- ASCII lower-casing of one character, as Go's `strings.ToLower` does
for the ASCII range (all filter keys and values in play are ASCII). -/
def lowerChar (c : Char) : Char :=
  if 'A' ≤ c ∧ c ≤ 'Z' then Char.ofNat (c.toNat + 32) else c

/-- `strings.ToLower`. -/
def strToLower (s : String) : String :=
  String.mk (s.data.map lowerChar)

/-- `strings.EqualFold`, modelled as lower-casing both sides (exact for
the ASCII strings that appear in protocol names). -/
def equalFold (a b : String) : Bool :=
  strToLower a == strToLower b

/-- The textual fields scanned by the generic fallback filter
(lines 620-629). -/
def searchFields (row : ServiceTableRow) : List String :=
  [row.Namespace, row.Name, row.«Type», row.ClusterIP, row.ExternalIP, row.PortName,
   toString row.Port, row.Protocol]

/-- `matchesFilters` (lines 585-645): conjunction over the filter map;
`status` only ever tests the values `active` (exact) and `inactive`
(not-active); any other status value falls through and constrains
nothing. -/
def matchesFilters (row : ServiceTableRow) (filters : List (String × String)) : Bool :=
  filters.all (fun f =>
    let filterValue := strToLower f.2
    if f.1 = "status" then
      if filterValue = "active" ∧ row.ForwardingState ≠ .active then false
      else if filterValue = "inactive" ∧ row.ForwardingState = .active then false
      else true
    else if f.1 = "type" then strContains (strToLower row.«Type») filterValue
    else if f.1 = "name" then strContains (strToLower row.Name) filterValue
    else if f.1 = "protocol" then equalFold row.Protocol filterValue
    else (searchFields row).any (fun field => strContains (strToLower field) filterValue))

/-- Set the `Selected` flag of every row to `index == sel`
(the loop at lines 190-194). -/
def markSelectedAux (sel idx : Int) : List ServiceTableRow → List ServiceTableRow
  | [] => []
  | r :: rest => { r with Selected := idx = sel } :: markSelectedAux sel (idx + 1) rest

/-- Flag exactly the row at index `sel` as selected. -/
def markSelected (rows : List ServiceTableRow) (sel : Int) : List ServiceTableRow :=
  markSelectedAux sel 0 rows

/-- Clear every `Selected` flag (lines 515-518). -/
def clearSelected (rows : List ServiceTableRow) : List ServiceTableRow :=
  rows.map (fun r => { r with Selected := false })

/-- Write `rows` back to whichever sequence is active (Go mutates the
slice returned by `getActiveRows` in place). -/
def setActiveRows (t : ServiceTable) (rows : List ServiceTableRow) : ServiceTable :=
  if t.filters.length > 0 then { t with filteredRows := rows } else { t with rows := rows }

/-- `adjustAfterFilter` (lines 648-663): reset selection to the first
filtered row (or -1 when none) and reset the scroll offset. -/
def adjustAfterFilter (t : ServiceTable) : ServiceTable :=
  if t.filteredRows.length > 0 then
    { t with selectedRow := 0, filteredRows := markSelected t.filteredRows 0, offset := 0 }
  else
    { t with selectedRow := -1, offset := 0 }

/-- `ApplyFilters` (lines 562-582). -/
def applyFilters (t : ServiceTable) (filters : List (String × String)) : ServiceTable :=
  let t := { t with filters := filters }
  if filters.length = 0 then
    adjustAfterFilter { t with filteredRows := t.rows }
  else
    adjustAfterFilter
      { t with filteredRows := t.rows.filter (fun row => matchesFilters row filters) }

/-- `adjustScrollOffset` (lines 275-299). -/
def adjustScrollOffset (t : ServiceTable) : ServiceTable :=
  if t.height ≤ 3 then t
  else
    let availableRows := t.height - 2
    let off1 :=
      if t.selectedRow < t.offset then t.selectedRow
      else if t.selectedRow ≥ t.offset + availableRows then t.selectedRow - availableRows + 1
      else t.offset
    let rows := getActiveRows t
    let maxOffset0 := (rows.length : Int) - availableRows
    let maxOffset := if maxOffset0 < 0 then 0 else maxOffset0
    { t with offset := if off1 > maxOffset then maxOffset else off1 }

/-- `fmt.Sprintf("%s/%s:%d", row.Namespace, row.Name, row.Port)` — the
selection identity used by `SetServices`. -/
def rowKey (row : ServiceTableRow) : String :=
  row.Namespace ++ "/" ++ row.Name ++ ":" ++ toString row.Port

/-- The restore loop of `SetServices` (lines 164-174): index of the first
active row whose key matches. -/
def findRowIdx (key : String) : List ServiceTableRow → Option Nat
  | [] => none
  | r :: rest => if rowKey r = key then some 0 else (findRowIdx key rest).map (· + 1)

/-- Selection restore + clamping of `SetServices` (lines 163-184). -/
def restoreSelection (rows : List ServiceTableRow) (key : String) : Int :=
  let found := if key ≠ "" then findRowIdx key rows else none
  let s0 : Int := match found with | some i => (i : Int) | none => 0
  let s1 : Int := if s0 ≥ (rows.length : Int) then (rows.length : Int) - 1 else s0
  if s1 < 0 then 0 else s1

/-- Final re-flagging step of `SetServices` (lines 189-194). -/
def setServicesFlags (t : ServiceTable) : ServiceTable :=
  let act := getActiveRows t
  if act.length > 0 ∧ 0 ≤ t.selectedRow ∧ t.selectedRow < (act.length : Int) then
    setActiveRows t (markSelected act t.selectedRow)
  else t

/-- `SetServices` (lines 57-195).  Note the key of the previously selected
row is read from `getActiveRows` *after* `t.rows` has already been
rebuilt (line 152 runs after line 70), so with no filter active the key
comes from the new row at the old index. -/
def setServices (t : ServiceTable) (services : List ServiceInfo) : ServiceTable :=
  let tA := { t with rows := buildRows services }
  let act1 := getActiveRows tA
  let selectedServiceKey : String :=
    if 0 ≤ tA.selectedRow ∧ tA.selectedRow < (act1.length : Int) then
      match act1[tA.selectedRow.toNat]? with
      | some row => rowKey row
      | none => ""
    else ""
  let tB := applyFilters tA tA.filters
  let sel := restoreSelection (getActiveRows tB) selectedServiceKey
  let tC := adjustScrollOffset { tB with selectedRow := sel }
  setServicesFlags tC

/-- The comparator body of `SortBy` (lines 399-447): primary field with the
documented tie-breaks. -/
def rowLessBase (field : String) (a b : ServiceTableRow) : Bool :=
  if field = "namespace" then
    if a.Namespace = b.Namespace then
      (if a.Name = b.Name then decide (a.Port < b.Port) else decide (a.Name < b.Name))
    else decide (a.Namespace < b.Namespace)
  else if field = "name" then
    if a.Name = b.Name then decide (a.Port < b.Port) else decide (a.Name < b.Name)
  else if field = "status" then
    if a.ForwardingState = b.ForwardingState then
      (if a.Name = b.Name then decide (a.Port < b.Port) else decide (a.Name < b.Name))
    else decide (stateOrd a.ForwardingState < stateOrd b.ForwardingState)
  else if field = "ports" then
    if a.Port = b.Port then decide (a.Name < b.Name) else decide (a.Port < b.Port)
  else if field = "localport" then
    if a.ForwardingPort = b.ForwardingPort then
      (if a.Name = b.Name then decide (a.Port < b.Port) else decide (a.Name < b.Name))
    else decide (a.ForwardingPort < b.ForwardingPort)
  else
    if a.Name = b.Name then decide (a.Port < b.Port) else decide (a.Name < b.Name)

/-- The full `SortBy` comparator (lines 399-452): `ascending=false`
negates the final boolean (line 449-451). -/
def rowLess (field : String) (ascending : Bool) (a b : ServiceTableRow) : Bool :=
  let result := rowLessBase field a b
  if ascending then result else !result

/-- Insert into a sorted list, first position where the comparator
accepts. -/
def orderedInsert (c : α → α → Bool) (a : α) : List α → List α
  | [] => [a]
  | b :: l => if c a b then a :: b :: l else b :: orderedInsert c a l

/-- Deterministic comparison sort used to model Go's `sort.Slice`.  Go's
slice sort is an unstable, deterministic comparison sort; on rows whose
comparator keys are pairwise distinct every comparison sort returns the
same, unique output, and the claims that involve ties are settled at the
comparator level, so the choice of insertion sort is immaterial there. -/
def insertionSort (c : α → α → Bool) : List α → List α
  | [] => []
  | a :: l => orderedInsert c a (insertionSort c l)

/-- `sort.Slice(t.rows, ...)` with the `SortBy` comparator. -/
def sortRows (field : String) (ascending : Bool) (rows : List ServiceTableRow) :
    List ServiceTableRow :=
  insertionSort (rowLess field ascending) rows

/-- `SortBy` (lines 397-532): sort the full rows, sort the filtered rows
only when a filter is active, then reset the selection flags and clamp
the selected index on the active sequence. -/
def sortBy (t : ServiceTable) (field : String) (ascending : Bool) : ServiceTable :=
  let t1 := { t with rows := sortRows field ascending t.rows }
  let t2 :=
    if t1.filters.length > 0 then
      { t1 with filteredRows := sortRows field ascending t1.filteredRows }
    else t1
  let active := clearSelected (getActiveRows t2)
  let sel0 := t2.selectedRow
  let sel1 := if sel0 ≥ (active.length : Int) then (active.length : Int) - 1 else sel0
  let sel2 := if sel1 < 0 then 0 else sel1
  let active2 :=
    if active.length > 0 ∧ 0 ≤ sel2 ∧ sel2 < (active.length : Int) then
      markSelected active sel2
    else active
  setActiveRows { t2 with selectedRow := sel2 } active2

/-- The per-field sort key: primary key first, documented tie-break
second, both encoded in one lexicographic type.  The components unused by
a field are held constant, so comparison under a fixed field is exactly
the documented (primary, tie-break) lexicographic order. -/
def sortKey (field : String) (r : ServiceTableRow) :
    Lex (Lex (String × Nat) × Lex (String × Nat)) :=
  if field = "namespace" then toLex (toLex (r.Namespace, 0), toLex (r.Name, r.Port))
  else if field = "name" then toLex (toLex (r.Name, 0), toLex ("", r.Port))
  else if field = "status" then
    toLex (toLex ("", stateOrd r.ForwardingState), toLex (r.Name, r.Port))
  else if field = "ports" then toLex (toLex ("", r.Port), toLex (r.Name, 0))
  else if field = "localport" then toLex (toLex ("", r.ForwardingPort), toLex (r.Name, r.Port))
  else toLex (toLex (r.Name, 0), toLex ("", r.Port))

/-- Side conditions relating a comparator `c` to a sortedness relation
`s`, under which the insertion sort with `c` produces `s`-sorted output
and is monotone with respect to sublists: `s` is implied by a positive or
(flipped) negative comparison, `s` is transitive, and a comparison pushes
through `s`. -/
structure SortSpec {α : Type} (c s : α → α → Bool) : Prop where
  hS1 : ∀ x y, c x y = true → s x y = true
  hS2 : ∀ x y, c x y = false → s y x = true
  hTrans : ∀ x y z, s x y = true → s y z = true → s x z = true
  hH : ∀ x y z, c x y = true → s y z = true → c x z = true

/-- A failure-marked session record, as every early error path of
`StartForwardWithLocalPort` stores it. -/
def failedFw (ns svc : String) (rp : Nat) (reason : String) : ForwardInfo :=
  { initialFw ns svc rp with ForwardingState := .failed, FailureReason := reason }

/-- Forget the selection flag: rows compared up to presentation state. -/
def stripSel (r : ServiceTableRow) : ServiceTableRow := { r with Selected := false }

/-! Concrete environments, sessions, services and table states used by the
witnesses and counterexamples below. -/

/-- An environment in which discovery finds a pod, every local port is
free, the round tripper is created and the tunnel signals readiness. -/
def envReady : StartEnv :=
  { listPods := .ok [{ name := "pod-1" }]
    getEndpoints := .ok { subsets := [] }
    getPod := .error "unused"
    portAvailable := fun _ => true
    freePort := .ok 50123
    roundTripper := .ok ()
    tunnelOutcome := .ready }

/-- Same as `envReady` but the 10-second timer wins the readiness race. -/
def envTimeout : StartEnv := { envReady with tunnelOutcome := .timeout }

/-- Same as `envReady` but every local-port probe reports the port taken. -/
def envPortBusy : StartEnv := { envReady with portAvailable := fun _ => false }

/-- No pods match the label selector and the service has no endpoint
subsets. -/
def envNoEndpoints : StartEnv :=
  { envReady with listPods := .ok [], getEndpoints := .ok { subsets := [] } }

/-- A session left in the failed state by an earlier start attempt. -/
def fwFailedDemo : ForwardInfo :=
  { Namespace := "web", Service := "frontend", RemotePort := 80, LocalPort := 0,
    HasChans := false, ForwardingState := .failed,
    FailureReason := "No pods found for service frontend" }

/-- A manager table holding only that failed session. -/
def tableFailedDemo : ManagerState := [("web/frontend:80", fwFailedDemo)]

/-- A TCP port-80 service port, not currently forwarded. -/
def portHttp : PortInfo :=
  { Name := "http", Port := 80, TargetPort := 8080, Protocol := "TCP",
    ForwardingState := .inactive, ForwardingPort := 0 }

/-- The same port record on port 2. -/
def portTwo : PortInfo := { portHttp with Port := 2 }

/-- Demo services in namespace `ns`. -/
def svcAlpha : ServiceInfo :=
  { Name := "alpha", Namespace := "ns", «Type» := "ClusterIP", Ports := [portHttp], Meta := none }

/-- A second demo service that lists before `alpha` by input order. -/
def svcBeta : ServiceInfo :=
  { Name := "beta", Namespace := "ns", «Type» := "ClusterIP", Ports := [portHttp], Meta := none }

/-- A third demo service exposing port 2. -/
def svcGamma : ServiceInfo :=
  { Name := "gamma", Namespace := "ns", «Type» := "ClusterIP", Ports := [portTwo], Meta := none }

/-- Two rows that tie on the `name` sort key and differ on the port
tie-break. -/
def rowTie1 : ServiceTableRow :=
  { Namespace := "ns", Name := "same", «Type» := "ClusterIP", ClusterIP := "<none>",
    ExternalIP := "<none>", PortName := "a", Port := 1, Protocol := "TCP",
    ForwardingState := .inactive, ForwardingPort := 0, Selected := false }

/-- Second row of the tie, with the larger port. -/
def rowTie2 : ServiceTableRow := { rowTie1 with PortName := "b", Port := 2 }

/-- A row with a distinct name, for tie-free sorting. -/
def rowZzz : ServiceTableRow := { rowTie2 with Name := "zzz" }

/-- The row produced for `svcAlpha`, flagged as the current selection. -/
def rowAlphaDemo : ServiceTableRow :=
  { Namespace := "ns", Name := "alpha", «Type» := "ClusterIP", ClusterIP := "<none>",
    ExternalIP := "<none>", PortName := "http", Port := 80, Protocol := "TCP",
    ForwardingState := .inactive, ForwardingPort := 0, Selected := true }

/-- A table with a name filter active and the `alpha` row selected. -/
def tableC7 : ServiceTable :=
  { rows := [rowAlphaDemo], filteredRows := [rowAlphaDemo], selectedRow := 0,
    width := 120, height := 30, offset := 0, filters := [("name", "alpha")] }

/-- A filter-active table over the two tying rows. -/
def tableFiltered : ServiceTable :=
  { rows := [rowTie1, rowTie2], filteredRows := [rowTie1], selectedRow := 0,
    width := 120, height := 30, offset := 0, filters := [("name", "same")] }

/-! ## Lemmas about the embedded operations -/

theorem lookupFw_storeFw (m : ManagerState) (k : String) (fw : ForwardInfo) :
    lookupFw (storeFw m k fw) k = some fw := by
  simp [storeFw, lookupFw]

theorem lookupFw_eraseFw (m : ManagerState) (k : String) :
    lookupFw (eraseFw m k) k = none := by
  induction m with
  | nil => rfl
  | cons p rest ih =>
    rcases p with ⟨k', fw⟩
    by_cases h : k' = k
    · simpa [eraseFw, List.filter_cons, h] using ih
    · simpa [eraseFw, List.filter_cons, h, lookupFw] using ih

theorem lookupFw_failStore (m : ManagerState) (key : String) (fw : ForwardInfo)
    (reason msg : String) (evs : List StartEvent) :
    lookupFw (failStore m key fw reason msg evs).state key =
      some { fw with ForwardingState := .failed, FailureReason := reason } := by
  simp [failStore, lookupFw_storeFw]

theorem startRoundTripper_error_inv (env : StartEnv) (m : ManagerState)
    (lp : Nat) (evs : List StartEvent) (r : StartResult)
    (h : startRoundTripper env m lp evs = .error r) :
    r.state = m ∧ r.events = evs ∧ ∃ msg, r.result = .error msg := by
  simp only [startRoundTripper] at h
  split at h
  · injection h with h; subst h; exact ⟨rfl, rfl, _, rfl⟩
  · cases h

theorem startRoundTripper_ok_inv (env : StartEnv) (m : ManagerState)
    (lp : Nat) (evs : List StartEvent) (lp' : Nat) (evs' : List StartEvent)
    (h : startRoundTripper env m lp evs = .ok (lp', evs')) :
    env.roundTripper = .ok () ∧ lp' = lp ∧ evs' = evs := by
  simp only [startRoundTripper] at h
  split at h
  · cases h
  · next heq =>
    injection h with h
    injection h with h1 h2
    subst h1; subst h2
    exact ⟨by rw [heq], rfl, rfl⟩

theorem startPodCheck_error_inv (env : StartEnv) (m : ManagerState) (ns svc : String)
    (rp pref : Nat) (pods : List PodItem) (r : StartResult)
    (h : startPodCheck env m ns svc rp pref pods = .error r) :
    (∃ msg, r.result = .error msg) ∧
    StartEvent.insertedPending (forwardKey ns svc rp) ∉ r.events ∧
    (r.state = m ∨ ∃ reason, lookupFw r.state (forwardKey ns svc rp) =
        some { initialFw ns svc rp with ForwardingState := .failed, FailureReason := reason }) := by
  simp only [startPodCheck] at h
  repeat' split at h
  all_goals first
    | (injection h with h; subst h;
       exact ⟨⟨_, rfl⟩, by simp [failStore],
         Or.inr ⟨_, lookupFw_failStore _ _ _ _ _ _⟩⟩)
    | (obtain ⟨hs, he, hm⟩ := startRoundTripper_error_inv _ _ _ _ _ h;
       exact ⟨hm, by simp [he], Or.inl hs⟩)

theorem startPodCheck_ok_inv (env : StartEnv) (m : ManagerState) (ns svc : String)
    (rp pref : Nat) (pods : List PodItem) (lp : Nat) (evs : List StartEvent)
    (h : startPodCheck env m ns svc rp pref pods = .ok (lp, evs)) :
    env.roundTripper = .ok () ∧
    ((0 < pref ∧ env.portAvailable pref = true ∧ lp = pref ∧ evs = [.probedPort pref]) ∨
     (¬ 0 < pref ∧ env.freePort = .ok lp ∧ evs = [.allocatedPort lp])) := by
  simp only [startPodCheck] at h
  repeat' split at h
  all_goals first
    | cases h
    | (obtain ⟨hrt, h1, h2⟩ := startRoundTripper_ok_inv _ _ _ _ _ _ h;
       subst h1; subst h2
       simp_all)

theorem startPreflight_error_inv (env : StartEnv) (m : ManagerState) (ns svc : String)
    (rp pref : Nat) (r : StartResult)
    (h : startPreflight env m ns svc rp pref = .error r) :
    (∃ msg, r.result = .error msg) ∧
    StartEvent.insertedPending (forwardKey ns svc rp) ∉ r.events ∧
    (r.state = m ∨ ∃ reason, lookupFw r.state (forwardKey ns svc rp) =
        some { initialFw ns svc rp with ForwardingState := .failed, FailureReason := reason }) := by
  simp only [startPreflight] at h
  repeat' split at h
  all_goals first
    | (injection h with h; subst h; exact ⟨⟨_, rfl⟩, by simp, Or.inl rfl⟩)
    | (injection h with h; subst h;
       exact ⟨⟨_, rfl⟩, by simp [failStore],
         Or.inr ⟨_, lookupFw_failStore _ _ _ _ _ _⟩⟩)
    | exact startPodCheck_error_inv _ _ _ _ _ _ _ _ h

theorem startPreflight_ok_inv (env : StartEnv) (m : ManagerState) (ns svc : String)
    (rp pref : Nat) (lp : Nat) (evs : List StartEvent)
    (h : startPreflight env m ns svc rp pref = .ok (lp, evs)) :
    env.roundTripper = .ok () ∧
    ((0 < pref ∧ env.portAvailable pref = true ∧ lp = pref ∧ evs = [.probedPort pref]) ∨
     (¬ 0 < pref ∧ env.freePort = .ok lp ∧ evs = [.allocatedPort lp])) := by
  simp only [startPreflight] at h
  repeat' split at h
  all_goals first
    | cases h
    | exact startPodCheck_ok_inv _ _ _ _ _ _ _ _ _ h

theorem start_already_active (env : StartEnv) (m : ManagerState) (ns svc : String)
    (rp pref : Nat) (h : (lookupFw m (forwardKey ns svc rp)).isSome = true) :
    startForwardWithLocalPort env m ns svc rp pref =
      { state := m
        result := .error s!"port forwarding already active for {forwardKey ns svc rp}"
        events := [] } := by
  simp [startForwardWithLocalPort, startPreflight, h]

theorem perm_orderedInsert (c : α → α → Bool) (a : α) (l : List α) :
    List.Perm (orderedInsert c a l) (a :: l) := by
  induction l with
  | nil => rfl
  | cons b l ih =>
    by_cases h : c a b
    · simp [orderedInsert, h]
    · simp only [orderedInsert, h, if_neg, Bool.not_eq_true]
      exact (ih.cons b).trans (List.Perm.swap a b l)

theorem perm_insertionSort (c : α → α → Bool) (l : List α) :
    List.Perm (insertionSort c l) l := by
  induction l with
  | nil => rfl
  | cons a l ih => exact (perm_orderedInsert c a _).trans (ih.cons a)

theorem mem_orderedInsert {c : α → α → Bool} {a x : α} {l : List α} :
    x ∈ orderedInsert c a l ↔ x = a ∨ x ∈ l := by
  rw [(perm_orderedInsert c a l).mem_iff]
  simp

theorem pairwise_orderedInsert {c s : α → α → Bool} (spec : SortSpec c s) (a : α) {l : List α}
    (hl : l.Pairwise (fun x y => s x y = true)) :
    (orderedInsert c a l).Pairwise (fun x y => s x y = true) := by
  induction l with
  | nil => simp [orderedInsert]
  | cons b l ih =>
    rcases List.pairwise_cons.mp hl with ⟨hb, hl'⟩
    by_cases h : c a b
    · simp only [orderedInsert, if_pos h]
      refine List.pairwise_cons.mpr ⟨?_, hl⟩
      intro x hx
      rcases List.mem_cons.mp hx with rfl | hx
      · exact spec.hS1 _ _ h
      · exact spec.hTrans _ _ _ (spec.hS1 _ _ h) (hb x hx)
    · simp only [orderedInsert, if_neg h]
      refine List.pairwise_cons.mpr ⟨?_, ih hl'⟩
      intro x hx
      rcases mem_orderedInsert.mp hx with rfl | hx
      · exact spec.hS2 _ _ (by simpa using h)
      · exact hb x hx

theorem pairwise_insertionSort {c s : α → α → Bool} (spec : SortSpec c s) (l : List α) :
    (insertionSort c l).Pairwise (fun x y => s x y = true) := by
  induction l with
  | nil => simp [insertionSort]
  | cons a l ih => exact pairwise_orderedInsert spec a ih

theorem sublist_orderedInsert (c : α → α → Bool) (a : α) (l : List α) :
    List.Sublist l (orderedInsert c a l) := by
  induction l with
  | nil => simp [orderedInsert]
  | cons b l ih =>
    by_cases h : c a b
    · simp only [orderedInsert, if_pos h]
      exact List.Sublist.cons a (List.Sublist.refl _)
    · simp only [orderedInsert, if_neg h]
      exact List.Sublist.cons₂ b ih

theorem singleton_sublist_orderedInsert (c : α → α → Bool) (a : α) (l : List α) :
    List.Sublist [a] (orderedInsert c a l) := by
  induction l with
  | nil => simp [orderedInsert]
  | cons b l ih =>
    by_cases h : c a b
    · simp only [orderedInsert, if_pos h]
      exact List.Sublist.cons₂ a (List.nil_sublist _)
    · simp only [orderedInsert, if_neg h]
      exact List.Sublist.cons b ih

theorem orderedInsert_sublist_mono {c s : α → α → Bool} (spec : SortSpec c s) (a : α)
    {l₁ l₂ : List α} (h : List.Sublist l₁ l₂)
    (h₂ : l₂.Pairwise (fun x y => s x y = true)) :
    List.Sublist (orderedInsert c a l₁) (orderedInsert c a l₂) := by
  induction h with
  | slnil => exact singleton_sublist_orderedInsert c a []
  | @cons l₁ t₂ b hsub ih =>
    rcases List.pairwise_cons.mp h₂ with ⟨hb, ht₂⟩
    by_cases hc : c a b
    · simp only [orderedInsert, if_pos hc]
      cases l₁ with
      | nil =>
        simp only [orderedInsert]
        exact List.Sublist.cons₂ a (List.nil_sublist (b :: t₂))
      | cons x l₁' =>
        have hx : x ∈ t₂ := hsub.subset (List.mem_cons_self x l₁')
        have hcx : c a x = true := spec.hH _ _ _ hc (hb x hx)
        simp only [orderedInsert, if_pos hcx]
        exact List.Sublist.cons₂ a (List.Sublist.cons b hsub)
    · simp only [orderedInsert, if_neg hc]
      exact List.Sublist.cons b (ih ht₂)
  | @cons₂ t₁ t₂ b hsub ih =>
    rcases List.pairwise_cons.mp h₂ with ⟨hb, ht₂⟩
    by_cases hc : c a b
    · simp only [orderedInsert, if_pos hc]
      exact List.Sublist.cons₂ a (List.Sublist.cons₂ b hsub)
    · simp only [orderedInsert, if_neg hc]
      exact List.Sublist.cons₂ b (ih ht₂)

theorem insertionSort_sublist_mono {c s : α → α → Bool} (spec : SortSpec c s)
    {l₁ l₂ : List α} (h : List.Sublist l₁ l₂) :
    List.Sublist (insertionSort c l₁) (insertionSort c l₂) := by
  induction h with
  | slnil => exact List.Sublist.refl _
  | @cons l₁ t₂ b hsub ih =>
    exact ih.trans (sublist_orderedInsert c b (insertionSort c t₂))
  | @cons₂ t₁ t₂ b hsub ih =>
    exact orderedInsert_sublist_mono spec b ih (pairwise_insertionSort spec t₂)

theorem eq_of_perm_of_pairwise {s : α → α → Bool} :
    ∀ {l₁ l₂ : List α}, List.Perm l₁ l₂ →
    l₁.Pairwise (fun x y => s x y = true) →
    l₂.Pairwise (fun x y => s x y = true) →
    (∀ a b, a ∈ l₁ → b ∈ l₁ → s a b = true → s b a = true → a = b) →
    l₁ = l₂
  | [], l₂, hp, _, _, _ => hp.nil_eq
  | a :: t₁, [], hp, _, _, _ => absurd hp.symm.nil_eq (by simp)
  | a :: t₁, b :: t₂, hp, h₁, h₂, hanti => by
    rcases List.pairwise_cons.mp h₁ with ⟨ha, ht₁⟩
    rcases List.pairwise_cons.mp h₂ with ⟨hb, ht₂⟩
    by_cases hab : a = b
    · subst hab
      have hp' : List.Perm t₁ t₂ := hp.cons_inv
      have : t₁ = t₂ := eq_of_perm_of_pairwise hp' ht₁ ht₂
        (fun x y hx hy => hanti x y (List.mem_cons_of_mem a hx) (List.mem_cons_of_mem a hy))
      rw [this]
    · exfalso
      have ha2 : a ∈ b :: t₂ := hp.subset (List.mem_cons_self a t₁)
      have ha2' : a ∈ t₂ := by
        rcases List.mem_cons.mp ha2 with h | h
        · exact absurd h hab
        · exact h
      have hb1 : b ∈ a :: t₁ := hp.symm.subset (List.mem_cons_self b t₂)
      have hb1' : b ∈ t₁ := by
        rcases List.mem_cons.mp hb1 with h | h
        · exact absurd h.symm hab
        · exact h
      exact hab (hanti a b (List.mem_cons_self a t₁) (List.mem_cons_of_mem a hb1')
        (ha b hb1') (hb a ha2'))

theorem orderedInsert_map (g : α → α) {c : α → α → Bool}
    (hg : ∀ x y, c (g x) (g y) = c x y) (a : α) (l : List α) :
    orderedInsert c (g a) (l.map g) = (orderedInsert c a l).map g := by
  induction l with
  | nil => rfl
  | cons b l ih =>
    by_cases h : c a b
    · simp [orderedInsert, hg, h]
    · simp [orderedInsert, hg, h, ih]

theorem insertionSort_map (g : α → α) {c : α → α → Bool}
    (hg : ∀ x y, c (g x) (g y) = c x y) (l : List α) :
    insertionSort c (l.map g) = (insertionSort c l).map g := by
  induction l with
  | nil => rfl
  | cons a l ih => simp [insertionSort, ih, orderedInsert_map g hg]

theorem stateOrd_inj : ∀ x y : ForwardingState, stateOrd x = stateOrd y ↔ x = y := by
  intro x y
  cases x <;> cases y <;> simp [stateOrd]

theorem rowLessBase_eq_keyLt (field : String) (a b : ServiceTableRow) :
    rowLessBase field a b = decide (sortKey field a < sortKey field b) := by
  by_cases h1 : field = "namespace"
  · subst h1
    by_cases h : a.Namespace = b.Namespace <;>
      by_cases h' : a.Name = b.Name <;>
        simp [rowLessBase, sortKey, h, h', Prod.Lex.lt_iff, decide_eq_decide]
  · by_cases h2 : field = "name"
    · subst h2
      by_cases h' : a.Name = b.Name <;>
        simp [rowLessBase, sortKey, h', Prod.Lex.lt_iff, decide_eq_decide]
    · by_cases h3 : field = "status"
      · subst h3
        by_cases h : a.ForwardingState = b.ForwardingState <;>
          by_cases h' : a.Name = b.Name <;>
            simp [rowLessBase, sortKey, h, h', Prod.Lex.lt_iff, decide_eq_decide,
              stateOrd_inj, h1]
      · by_cases h4 : field = "ports"
        · subst h4
          by_cases h : a.Port = b.Port <;>
            simp [rowLessBase, sortKey, h, Prod.Lex.lt_iff, decide_eq_decide, h1]
        · by_cases h5 : field = "localport"
          · subst h5
            by_cases h : a.ForwardingPort = b.ForwardingPort <;>
              by_cases h' : a.Name = b.Name <;>
                simp [rowLessBase, sortKey, h, h', Prod.Lex.lt_iff, decide_eq_decide, h1]
          · by_cases h' : a.Name = b.Name <;>
              simp [rowLessBase, sortKey, h1, h2, h3, h4, h5, h', Prod.Lex.lt_iff,
                decide_eq_decide]

theorem sortKey_name (r : ServiceTableRow) :
    sortKey "name" r = toLex (toLex (r.Name, 0), toLex ("", r.Port)) := rfl

theorem rowLess_name_bridge (asc : Bool) (a b : ServiceTableRow) :
    rowLess "name" asc a b =
      (if asc then decide (sortKey "name" a < sortKey "name" b)
       else !decide (sortKey "name" a < sortKey "name" b)) := by
  cases asc <;> simp [rowLess, rowLessBase_eq_keyLt]

theorem eq_of_mem_of_name_eq :
    ∀ {l : List ServiceTableRow},
      l.Pairwise (fun a b => a.Name ≠ b.Name) →
      ∀ {a b : ServiceTableRow}, a ∈ l → b ∈ l → a.Name = b.Name → a = b
  | [], _, a, b, ha, _, _ => absurd ha (List.not_mem_nil a)
  | x :: t, h, a, b, ha, hb, hname => by
    rcases List.pairwise_cons.mp h with ⟨hx, ht⟩
    rcases List.mem_cons.mp ha with rfl | ha' <;> rcases List.mem_cons.mp hb with rfl | hb'
    · rfl
    · exact absurd hname (hx b hb')
    · exact absurd hname.symm (hx a ha')
    · exact eq_of_mem_of_name_eq ht ha' hb' hname

theorem strip_markSelectedAux (s i : Int) (l : List ServiceTableRow) :
    (markSelectedAux s i l).map stripSel = l.map stripSel := by
  induction l generalizing i with
  | nil => rfl
  | cons r rest ih => simp [markSelectedAux, stripSel, ih]

theorem strip_markSelected (l : List ServiceTableRow) (s : Int) :
    (markSelected l s).map stripSel = l.map stripSel :=
  strip_markSelectedAux s 0 l

theorem strip_clearSelected (l : List ServiceTableRow) :
    (clearSelected l).map stripSel = l.map stripSel := by
  induction l with
  | nil => rfl
  | cons r rest ih => simp [clearSelected, stripSel, ih]

theorem rowLess_stripSel (field : String) (asc : Bool) (a b : ServiceTableRow) :
    rowLess field asc (stripSel a) (stripSel b) = rowLess field asc a b := rfl

theorem strip_sortRows (field : String) (asc : Bool) (l : List ServiceTableRow) :
    (sortRows field asc l).map stripSel = sortRows field asc (l.map stripSel) :=
  (insertionSort_map stripSel (rowLess_stripSel field asc) l).symm

theorem sortBy_rows_filters_pos (t : ServiceTable) (field : String) (asc : Bool)
    (hf : t.filters.length > 0) :
    (sortBy t field asc).rows = sortRows field asc t.rows ∧
    ((sortBy t field asc).filteredRows.map stripSel) =
      (sortRows field asc t.filteredRows).map stripSel := by
  refine ⟨?_, ?_⟩ <;>
    simp only [sortBy, setActiveRows, getActiveRows, hf, if_pos]
  all_goals repeat' split
  all_goals simp [strip_markSelected, strip_clearSelected]

theorem applyFilters_char (t : ServiceTable) (filters : List (String × String)) :
    (applyFilters t filters).rows = t.rows ∧
    ((applyFilters t filters).filteredRows.map stripSel) =
      (if filters.length = 0 then t.rows.map stripSel
       else (t.rows.filter (fun row => matchesFilters row filters)).map stripSel) := by
  by_cases h : filters.length = 0 <;>
    refine ⟨?_, ?_⟩ <;>
    simp only [applyFilters, h, adjustAfterFilter, if_pos, if_neg] <;>
    repeat' split
  all_goals simp [strip_markSelected, h]

theorem rowKey_ne_empty (r : ServiceTableRow) : rowKey r ≠ "" := by
  intro h
  have hlen := congrArg String.length h
  simp only [rowKey, String.length_append] at hlen
  rw [show ("/" : String).length = 1 from rfl, show (":" : String).length = 1 from rfl] at hlen
  have hempty : ("" : String).length = 0 := rfl
  omega

theorem findRowIdx_lt_length {k : String} :
    ∀ {l : List ServiceTableRow} {i : Nat}, findRowIdx k l = some i → i < l.length := by
  intro l
  induction l with
  | nil => intro i h; cases h
  | cons r rest ih =>
    intro i h
    simp only [findRowIdx] at h
    split at h
    · injection h with h
      subst h
      simp [List.length_cons]
    · rcases Option.map_eq_some'.mp h with ⟨j, hj, rfl⟩
      have := ih hj
      simp only [List.length_cons]
      omega

theorem findRowIdx_markSelectedAux (k : String) (s i : Int) (l : List ServiceTableRow) :
    findRowIdx k (markSelectedAux s i l) = findRowIdx k l := by
  induction l generalizing i with
  | nil => rfl
  | cons r rest ih =>
    simp only [markSelectedAux, findRowIdx]
    have hkey : rowKey { r with Selected := decide (i = s) } = rowKey r := rfl
    rw [hkey, ih]

theorem markSelectedAux_length (s i : Int) (l : List ServiceTableRow) :
    (markSelectedAux s i l).length = l.length := by
  induction l generalizing i with
  | nil => rfl
  | cons r rest ih => simp [markSelectedAux, ih]

theorem restoreSelection_eq (rows : List ServiceTableRow) (key : String) (hkey : key ≠ "") :
    restoreSelection rows key =
      (match findRowIdx key rows with
       | some i => (i : Int)
       | none => 0) := by
  simp only [restoreSelection, hkey, ne_eq, not_false_iff, if_pos]
  cases hf : findRowIdx key rows with
  | some i =>
    have hi : i < rows.length := findRowIdx_lt_length hf
    have h1 : ¬ ((i : Int) ≥ (rows.length : Int)) := by omega
    simp only [hf, h1, if_neg]
    have h2 : ¬ ((i : Int) < 0) := by omega
    simp [h2]
  | none =>
    simp only [hf]
    by_cases h : (0 : Int) ≥ (rows.length : Int)
    · simp only [h, if_pos]
      have : (rows.length : Int) - 1 < 0 := by omega
      simp [this]
    · simp only [h, if_neg]
      norm_num

theorem restoreSelection_nil (key : String) : restoreSelection [] key = 0 := by
  by_cases h : key = ""
  · simp [restoreSelection, h, findRowIdx]
  · rw [restoreSelection_eq [] key h]
    simp [findRowIdx]

theorem setServicesFlags_selectedRow (t : ServiceTable) :
    (setServicesFlags t).selectedRow = t.selectedRow := by
  simp only [setServicesFlags, setActiveRows]
  repeat' split
  all_goals rfl

theorem adjustScrollOffset_selectedRow (t : ServiceTable) :
    (adjustScrollOffset t).selectedRow = t.selectedRow := by
  simp only [adjustScrollOffset]
  repeat' split
  all_goals rfl

theorem getActiveRows_adjustScrollOffset (t : ServiceTable) :
    getActiveRows (adjustScrollOffset t) = getActiveRows t := by
  simp only [adjustScrollOffset, getActiveRows]
  repeat' split
  all_goals rfl

theorem getActiveRows_setServicesFlags_length (t : ServiceTable) :
    (getActiveRows (setServicesFlags t)).length = (getActiveRows t).length := by
  simp only [setServicesFlags, setActiveRows, getActiveRows, markSelected]
  repeat' split
  all_goals simp_all [markSelectedAux_length]

theorem applyFilters_filters (t : ServiceTable) (fs : List (String × String)) :
    (applyFilters t fs).filters = fs := by
  simp only [applyFilters, adjustAfterFilter]
  repeat' split
  all_goals rfl

theorem findRowIdx_applyFilters_pos (t : ServiceTable) (fs : List (String × String))
    (k : String) (h : ¬ fs.length = 0) :
    findRowIdx k (applyFilters t fs).filteredRows =
      findRowIdx k (t.rows.filter (fun row => matchesFilters row fs)) := by
  simp only [applyFilters]
  rw [if_neg h]
  simp only [adjustAfterFilter, markSelected]
  split
  · exact findRowIdx_markSelectedAux k 0 0 _
  · rfl

theorem getActiveRows_set_selectedRow (t : ServiceTable) (v : Int) :
    getActiveRows { t with selectedRow := v } = getActiveRows t := rfl

theorem SortSpec.congr {α : Type} {c c' s : α → α → Bool} (h : ∀ a b, c' a b = c a b)
    (spec : SortSpec c s) : SortSpec c' s where
  hS1 := fun x y hx => spec.hS1 x y (by rw [← h]; exact hx)
  hS2 := fun x y hx => spec.hS2 x y (by rw [← h]; exact hx)
  hTrans := spec.hTrans
  hH := fun x y z hx hs => by rw [h]; exact spec.hH x y z (by rw [← h]; exact hx) hs

theorem sortSpecOfKey {α K : Type} [LinearOrder K] (f : α → K) :
    SortSpec (fun a b => decide (f a < f b)) (fun a b => !decide (f b < f a)) where
  hS1 := fun x y h => by
    simp only [decide_eq_true_eq] at h
    simp only [Bool.not_eq_true', decide_eq_false_iff_not]
    exact lt_asymm h
  hS2 := fun x y h => by simp [h]
  hTrans := fun x y z hxy hyz => by
    simp only [Bool.not_eq_true', decide_eq_false_iff_not, not_lt] at hxy hyz ⊢
    exact le_trans hxy hyz
  hH := fun x y z hxy hyz => by
    simp only [decide_eq_true_eq] at hxy ⊢
    simp only [Bool.not_eq_true', decide_eq_false_iff_not, not_lt] at hyz
    exact lt_of_lt_of_le hxy hyz

theorem sortSpecOfKeyDesc {α K : Type} [LinearOrder K] (f : α → K) :
    SortSpec (fun a b => !decide (f a < f b)) (fun a b => !decide (f a < f b)) where
  hS1 := fun _ _ h => h
  hS2 := fun x y h => by
    simp only [Bool.not_eq_false', decide_eq_true_eq] at h
    simp only [Bool.not_eq_true', decide_eq_false_iff_not]
    exact lt_asymm h
  hTrans := fun x y z hxy hyz => by
    simp only [Bool.not_eq_true', decide_eq_false_iff_not, not_lt] at hxy hyz ⊢
    exact le_trans hyz hxy
  hH := fun x y z hxy hyz => by
    simp only [Bool.not_eq_true', decide_eq_false_iff_not, not_lt] at hxy hyz ⊢
    exact le_trans hyz hxy

theorem rowLess_sortSpec (field : String) (asc : Bool) :
    ∃ s, SortSpec (rowLess field asc) s := by
  cases asc with
  | true =>
    exact ⟨_, SortSpec.congr
      (fun a b => by
        show rowLess field true a b = decide (sortKey field a < sortKey field b)
        simp [rowLess, rowLessBase_eq_keyLt])
      (sortSpecOfKey (sortKey field))⟩
  | false =>
    exact ⟨_, SortSpec.congr
      (fun a b => by
        show rowLess field false a b = !decide (sortKey field a < sortKey field b)
        simp [rowLess, rowLessBase_eq_keyLt])
      (sortSpecOfKeyDesc (sortKey field))⟩

/-! ## Claim theorems -/

/-- C1: for every manager state whose session table already holds an entry
for the key (namespace, service, remotePort) — in any lifecycle state — a
call to `StartForwardWithLocalPort` for that key returns the
already-active error immediately, leaves the table unchanged and performs
no side effects (its event trace is empty, so in particular no local port
is probed or allocated); consequently, of two sequential start calls for
the same key, the second returns the already-active error whenever the
first left an entry in the table, and allocates nothing. -/
theorem start_alreadyActive_contract :
    (∀ env m ns svc rp pref, (lookupFw m (forwardKey ns svc rp)).isSome = true →
      startForwardWithLocalPort env m ns svc rp pref =
        { state := m
          result := .error s!"port forwarding already active for {forwardKey ns svc rp}"
          events := [] }) ∧
    (∀ env₁ env₂ m₀ ns svc rp p₁ p₂,
      (lookupFw (startForwardWithLocalPort env₁ m₀ ns svc rp p₁).state
          (forwardKey ns svc rp)).isSome = true →
      startForwardWithLocalPort env₂ (startForwardWithLocalPort env₁ m₀ ns svc rp p₁).state
          ns svc rp p₂ =
        { state := (startForwardWithLocalPort env₁ m₀ ns svc rp p₁).state
          result := .error s!"port forwarding already active for {forwardKey ns svc rp}"
          events := [] }) :=
  ⟨fun env m ns svc rp pref h => start_already_active env m ns svc rp pref h,
   fun env₁ env₂ m₀ ns svc rp p₁ p₂ h =>
     start_already_active env₂ (startForwardWithLocalPort env₁ m₀ ns svc rp p₁).state
       ns svc rp p₂ h⟩

/-- C1 witness: a second start against a table already holding a (failed)
entry for `web/frontend:80` is rejected with the exact error, the table
untouched and no events emitted. -/
theorem start_alreadyActive_contract_witness :
    startForwardWithLocalPort envReady tableFailedDemo "web" "frontend" 80 9090 =
      { state := tableFailedDemo
        result := .error "port forwarding already active for web/frontend:80"
        events := [] } := by
  have h := start_alreadyActive_contract.1 envReady tableFailedDemo "web" "frontend" 80 9090
    (by decide)
  exact h.trans (by decide)

/-- C2 counterexample: with a failed entry for the key in the table, the
manager's start does not tear it down and proceed — it rejects the call
with the already-active error and leaves the failed entry in place. -/
theorem start_keeps_failed_entry_cex :
    startForwardWithLocalPort envReady tableFailedDemo "web" "frontend" 80 80 =
      { state := tableFailedDemo
        result := .error "port forwarding already active for web/frontend:80"
        events := [] } ∧
    fwFailedDemo.ForwardingState = .failed := by
  decide

/-- C2 (amended): the teardown-then-fresh-start of a failed entry is
performed by the TUI caller, not by the manager's start: on a failed
port, `startPortForward` (commands.go) first calls `StopForward` for the
key and then `StartForwardWithLocalPort`; this composition removes the
stale entry and behaves exactly as a fresh start on the table with the
key deleted. -/
theorem retryFailed_fresh_start (env : StartEnv) (m : ManagerState) (ns svc : String)
    (port : Nat) (fw : ForwardInfo)
    (hlook : lookupFw m (forwardKey ns svc port) = some fw)
    (_hfailed : fw.ForwardingState = .failed) :
    retryFailedForward env m ns svc port =
      startForwardWithLocalPort env (eraseFw m (forwardKey ns svc port)) ns svc port port ∧
    lookupFw (eraseFw m (forwardKey ns svc port)) (forwardKey ns svc port) = none := by
  constructor
  · simp [retryFailedForward, stopForward, hlook]
  · exact lookupFw_eraseFw _ _

/-- C2 witness: the retry path on the concrete failed `web/frontend:80`
entry equals a fresh start on the table without the key. -/
theorem retryFailed_fresh_start_witness :
    retryFailedForward envReady tableFailedDemo "web" "frontend" 80 =
      startForwardWithLocalPort envReady (eraseFw tableFailedDemo (forwardKey "web" "frontend" 80))
        "web" "frontend" 80 80 ∧
    lookupFw (eraseFw tableFailedDemo (forwardKey "web" "frontend" 80))
      (forwardKey "web" "frontend" 80) = none :=
  retryFailed_fresh_start envReady tableFailedDemo "web" "frontend" 80 fwFailedDemo
    (by decide) (by decide)

/-- C3: for every start call that reaches tunnel establishment (preflight
succeeded) in which the 10-second timer wins the readiness race, start
returns the timeout error (not a local port), the session's entry is left
failed with the timeout reason recorded, and the cancellation signal is
sent to the tunnel (the stop channel is closed); and in every start call
whatsoever, a local port is returned only when the session's entry has
transitioned to active, with that very port recorded. -/
theorem start_timeout_contract :
    (∀ env m ns svc rp pref lp evs0,
      startPreflight env m ns svc rp pref = .ok (lp, evs0) →
      env.tunnelOutcome = .timeout →
      (startForwardWithLocalPort env m ns svc rp pref).result =
          .error "timeout waiting for port forward to be ready" ∧
      lookupFw (startForwardWithLocalPort env m ns svc rp pref).state (forwardKey ns svc rp) =
        some { Namespace := ns, Service := svc, RemotePort := rp, LocalPort := lp,
               HasChans := true, ForwardingState := .failed, FailureReason := timeoutReason } ∧
      StartEvent.closedStop (forwardKey ns svc rp) ∈
        (startForwardWithLocalPort env m ns svc rp pref).events) ∧
    (∀ env m ns svc rp pref p,
      (startForwardWithLocalPort env m ns svc rp pref).result = .ok p →
      ∃ fw, lookupFw (startForwardWithLocalPort env m ns svc rp pref).state (forwardKey ns svc rp) =
          some fw ∧ fw.ForwardingState = .active ∧ fw.LocalPort = p) := by
  constructor
  · intro env m ns svc rp pref lp evs0 hpf hto
    refine ⟨?_, ?_, ?_⟩ <;>
      simp [startForwardWithLocalPort, hpf, hto, waitEvents, lookupFw_storeFw]
  · intro env m ns svc rp pref p hok
    cases hpf : startPreflight env m ns svc rp pref with
    | error r =>
      obtain ⟨⟨msg, hmsg⟩, -, -⟩ := startPreflight_error_inv _ _ _ _ _ _ _ hpf
      rw [show startForwardWithLocalPort env m ns svc rp pref = r by
        simp [startForwardWithLocalPort, hpf]] at hok
      rw [hmsg] at hok
      cases hok
    | ok v =>
      obtain ⟨lp, evs0⟩ := v
      cases hout : env.tunnelOutcome with
      | ready =>
        refine ⟨{ Namespace := ns, Service := svc, RemotePort := rp, LocalPort := lp,
                  HasChans := true, ForwardingState := .active, FailureReason := "" }, ?_, rfl, ?_⟩
        · simp [startForwardWithLocalPort, hpf, hout, lookupFw_storeFw]
        · have : (startForwardWithLocalPort env m ns svc rp pref).result = .ok lp := by
            simp [startForwardWithLocalPort, hpf, hout]
          rw [this] at hok
          injection hok
      | ctxCancelled =>
        have : (startForwardWithLocalPort env m ns svc rp pref).result =
            .error "context cancelled" := by
          simp [startForwardWithLocalPort, hpf, hout]
        rw [this] at hok
        cases hok
      | timeout =>
        have : (startForwardWithLocalPort env m ns svc rp pref).result =
            .error "timeout waiting for port forward to be ready" := by
          simp [startForwardWithLocalPort, hpf, hout]
        rw [this] at hok
        cases hok

/-- C3 witness: a concrete timed-out start on `web/frontend:80` with
preferred local port 8080. -/
theorem start_timeout_contract_witness :
    (startForwardWithLocalPort envTimeout [] "web" "frontend" 80 8080).result =
        .error "timeout waiting for port forward to be ready" ∧
    lookupFw (startForwardWithLocalPort envTimeout [] "web" "frontend" 80 8080).state
        (forwardKey "web" "frontend" 80) =
      some { Namespace := "web", Service := "frontend", RemotePort := 80, LocalPort := 8080,
             HasChans := true, ForwardingState := .failed, FailureReason := timeoutReason } ∧
    StartEvent.closedStop (forwardKey "web" "frontend" 80) ∈
      (startForwardWithLocalPort envTimeout [] "web" "frontend" 80 8080).events :=
  start_timeout_contract.1 envTimeout [] "web" "frontend" 80 8080 8080 [.probedPort 8080]
    (by decide) rfl

/-- C4 counterexample: in a successful start the event trace shows the
tunnel-provider goroutine spawned (manager.go line 226) strictly before
the pending entry is inserted into the table (lines 285-288) — the
opposite of the claimed order, so the pending entry is not observable for
the whole time establishment is in progress. -/
theorem pending_after_spawn_cex :
    (startForwardWithLocalPort envReady [] "web" "frontend" 80 8080).events =
      [.probedPort 8080, .spawnedTunnel 8080 80, .insertedPending "web/frontend:80",
       .markedActive "web/frontend:80"] ∧
    List.findIdx (fun e => e == StartEvent.spawnedTunnel 8080 80)
        (startForwardWithLocalPort envReady [] "web" "frontend" 80 8080).events <
      List.findIdx (fun e => e == StartEvent.insertedPending "web/frontend:80")
        (startForwardWithLocalPort envReady [] "web" "frontend" 80 8080).events := by
  decide

/-- C4 (amended): in every start that reaches tunnel establishment, the
pending entry is inserted into the table immediately after the
establishment goroutine is spawned and before the caller begins waiting
on the readiness race, so it is observable throughout the wait — but
establishment has already been handed to the provider by then. -/
theorem pending_insert_position (env : StartEnv) (m : ManagerState) (ns svc : String)
    (rp pref lp : Nat) (evs0 : List StartEvent)
    (h : startPreflight env m ns svc rp pref = .ok (lp, evs0)) :
    (startForwardWithLocalPort env m ns svc rp pref).events =
      evs0 ++ [.spawnedTunnel lp rp, .insertedPending (forwardKey ns svc rp)] ++
        waitEvents env.tunnelOutcome (forwardKey ns svc rp) := by
  cases ho : env.tunnelOutcome <;>
    simp [startForwardWithLocalPort, h, ho, waitEvents]

/-- C4 witness: the concrete order of events of a ready start on
`db/primary:5432`. -/
theorem pending_insert_position_witness :
    (startForwardWithLocalPort envReady [] "db" "primary" 5432 9091).events =
      [.probedPort 9091, .spawnedTunnel 9091 5432, .insertedPending "db/primary:5432",
       .markedActive "db/primary:5432"] := by
  have h := pending_insert_position envReady [] "db" "primary" 5432 9091 9091
    [.probedPort 9091] (by decide)
  exact h.trans (by decide)

/-- C5 counterexample: a start whose preferred local port is taken
returns the port-in-use error but does not leave the table unaffected —
it records a failed entry for the key. -/
theorem portInUse_failed_entry_cex :
    (startForwardWithLocalPort envPortBusy [] "web" "frontend" 80 8080).result =
      .error "port 8080 is already in use" ∧
    (startForwardWithLocalPort envPortBusy [] "web" "frontend" 80 8080).state ≠ [] ∧
    Option.map (fun fw => fw.ForwardingState)
        (lookupFw (startForwardWithLocalPort envPortBusy [] "web" "frontend" 80 8080).state
          "web/frontend:80") =
      some .failed := by
  decide

/-- C5 (amended): a start whose preferred local port is already taken
returns the port-in-use error and records a failed entry for the key with
that reason (consistent with §7's failures-are-recorded policy); and
whenever the preferred port probe fails, no active entry for the key can
ever appear in the resulting table. -/
theorem portInUse_contract :
    (∀ env m ns svc rp pref pod rest,
      lookupFw m (forwardKey ns svc rp) = none →
      0 < pref →
      env.portAvailable pref = false →
      env.listPods = .ok (pod :: rest) →
      pod.name ≠ "" →
      (startForwardWithLocalPort env m ns svc rp pref).result =
          .error s!"port {pref} is already in use" ∧
      lookupFw (startForwardWithLocalPort env m ns svc rp pref).state (forwardKey ns svc rp) =
        some (failedFw ns svc rp s!"Port {pref} is already in use")) ∧
    (∀ env m ns svc rp pref fw,
      lookupFw m (forwardKey ns svc rp) = none →
      0 < pref →
      env.portAvailable pref = false →
      lookupFw (startForwardWithLocalPort env m ns svc rp pref).state (forwardKey ns svc rp) =
        some fw →
      fw.ForwardingState ≠ .active) := by
  constructor
  · intro env m ns svc rp pref pod rest hnone hpref hpa hpods hname
    have hsome : (lookupFw m (forwardKey ns svc rp)).isSome = false := by simp [hnone]
    constructor <;>
      simp [startForwardWithLocalPort, startPreflight, startPodCheck, hsome, hpods, hname,
        hpref, hpa, failStore, lookupFw_storeFw, initialFw, failedFw]
  · intro env m ns svc rp pref fw hnone hpref hpa hlook hact
    cases hpf : startPreflight env m ns svc rp pref with
    | ok v =>
      obtain ⟨lp, evs0⟩ := v
      obtain ⟨-, hdisj⟩ := startPreflight_ok_inv _ _ _ _ _ _ _ _ hpf
      rcases hdisj with ⟨-, hpa', -, -⟩ | ⟨hnpref, -, -⟩
      · rw [hpa] at hpa'; cases hpa'
      · exact hnpref hpref
    | error r =>
      obtain ⟨-, -, hstate⟩ := startPreflight_error_inv _ _ _ _ _ _ _ hpf
      rw [show startForwardWithLocalPort env m ns svc rp pref = r by
        simp [startForwardWithLocalPort, hpf]] at hlook
      rcases hstate with hs | ⟨reason, hr⟩
      · rw [hs, hnone] at hlook; cases hlook
      · rw [hr] at hlook
        injection hlook with hfw
        rw [← hfw] at hact
        cases hact

/-- C5 witness: the concrete port-in-use start on `api/gateway:443` with
preferred port 8443. -/
theorem portInUse_contract_witness :
    (startForwardWithLocalPort envPortBusy [] "api" "gateway" 443 8443).result =
      .error "port 8443 is already in use" ∧
    lookupFw (startForwardWithLocalPort envPortBusy [] "api" "gateway" 443 8443).state
        (forwardKey "api" "gateway" 443) =
      some (failedFw "api" "gateway" 443 "Port 8443 is already in use") := by
  have h := portInUse_contract.1 envPortBusy [] "api" "gateway" 443 8443 { name := "pod-1" } []
    (by decide) (by decide) (by decide) (by decide) (by decide)
  exact ⟨h.1.trans (by decide), h.2.trans (by decide)⟩

/-- C10: `IsForwarding` returns true exactly when the manager's table
contains an entry for the key, regardless of the entry's lifecycle state;
in particular, after a start that failed with no endpoints (and has not
been stopped), the failed entry is still in the table and `IsForwarding`
still returns true. -/
theorem isForwarding_contract :
    (∀ m ns svc rp, isForwarding m ns svc rp = (lookupFw m (forwardKey ns svc rp)).isSome) ∧
    (∀ env m ns svc rp pref,
      lookupFw m (forwardKey ns svc rp) = none →
      env.listPods = .ok [] →
      env.getEndpoints = .ok { subsets := [] } →
      (startForwardWithLocalPort env m ns svc rp pref).result =
          .error s!"no pods found for service {svc}" ∧
      isForwarding (startForwardWithLocalPort env m ns svc rp pref).state ns svc rp = true ∧
      lookupFw (startForwardWithLocalPort env m ns svc rp pref).state (forwardKey ns svc rp) =
        some (failedFw ns svc rp s!"No pods found for service {svc}")) := by
  constructor
  · intro m ns svc rp; rfl
  · intro env m ns svc rp pref hnone hpods heps
    have hsome : (lookupFw m (forwardKey ns svc rp)).isSome = false := by simp [hnone]
    refine ⟨?_, ?_, ?_⟩ <;>
      simp [startForwardWithLocalPort, startPreflight, hsome, hpods, heps, failStore,
        lookupFw_storeFw, isForwarding, initialFw, failedFw]

/-- C10 witness: a concrete no-endpoints failure on `web/frontend:80`
leaves a failed entry and `IsForwarding` reports true. -/
theorem isForwarding_contract_witness :
    (startForwardWithLocalPort envNoEndpoints [] "web" "frontend" 80 0).result =
      .error "no pods found for service frontend" ∧
    isForwarding (startForwardWithLocalPort envNoEndpoints [] "web" "frontend" 80 0).state
      "web" "frontend" 80 = true ∧
    lookupFw (startForwardWithLocalPort envNoEndpoints [] "web" "frontend" 80 0).state
        (forwardKey "web" "frontend" 80) =
      some (failedFw "web" "frontend" 80 "No pods found for service frontend") := by
  have h := isForwarding_contract.2 envNoEndpoints [] "web" "frontend" 80 0
    (by decide) (by decide) (by decide)
  exact ⟨h.1.trans (by decide), h.2.1, h.2.2.trans (by decide)⟩

/-- C6 (code bug): the status filter only implements the values `active`
(exact) and `inactive` (not-active); for the value `pending` (and
likewise `failed`) `matchesFilters` constrains nothing, so a row whose
forwarding state is inactive passes a `status=pending` filter and shows
up in the filtered sequence — although the UI's own filter suggestions
offer `pending` and `failed` as status values and the spec requires an
exact state match for them. -/
theorem status_filter_pending_failed_bug :
    matchesFilters rowTie1 [("status", "pending")] = true ∧
    rowTie1.ForwardingState ≠ .pending ∧
    matchesFilters rowTie1 [("status", "failed")] = true ∧
    rowTie1.ForwardingState ≠ .failed ∧
    ((applyFilters { newServiceTable with rows := [rowTie1] }
        [("status", "pending")]).filteredRows.map stripSel) = [rowTie1] := by
  decide

/-- C7 counterexample: with no filter active, `SetServices` captures the
selection key from the *new* row sequence at the old numeric index (the
rows are rebuilt before the key is read), so the previously selected
identity `ns/alpha:80` is not preserved: after a rebuild that prepends
`beta`, the selection stays at index 0, now `ns/beta:80`, instead of
re-locating to `ns/alpha:80` at index 1. -/
theorem setServices_selection_cex :
    (setServices (setServices newServiceTable [svcAlpha]) [svcBeta, svcAlpha]).selectedRow = 0 ∧
    ((getActiveRows (setServices (setServices newServiceTable [svcAlpha])
        [svcBeta, svcAlpha])).map rowKey) = ["ns/beta:80", "ns/alpha:80"] ∧
    ((getActiveRows (setServices newServiceTable [svcAlpha])).map rowKey) = ["ns/alpha:80"] ∧
    (setServices newServiceTable [svcAlpha]).selectedRow = 0 := by
  decide

/-- C7 (amended): when a filter is active, `SetServices` does preserve the
previously selected row's identity: it re-locates the first row with the
old selected row's (namespace, service, port) key in the rebuilt filtered
sequence, falling back to index 0 when that identity no longer exists; and
whenever the rebuilt active sequence is empty the selected index ends at 0
(not -1).  With no filter active the captured key comes from the new row
at the old index (see the counterexample), which coincides with the old
identity whenever the prefix of the row sequence up to that index is
unchanged. -/
theorem setServices_selection_contract :
    (∀ t services selRow,
      t.filters.length > 0 →
      0 ≤ t.selectedRow →
      t.filteredRows[t.selectedRow.toNat]? = some selRow →
      (setServices t services).selectedRow =
        (match findRowIdx (rowKey selRow)
            ((buildRows services).filter (fun r => matchesFilters r t.filters)) with
         | some i => (i : Int)
         | none => 0)) ∧
    (∀ t services,
      (getActiveRows (setServices t services)).length = 0 →
      (setServices t services).selectedRow = 0) := by
  constructor
  · intro t services selRow hf h0 hget
    have hlt : t.selectedRow.toNat < t.filteredRows.length := by
      by_contra hge
      rw [List.getElem?_eq_none (by omega)] at hget
      cases hget
    have hltInt : t.selectedRow < (t.filteredRows.length : Int) := by
      have := Int.toNat_of_nonneg h0
      omega
    unfold setServices
    rw [setServicesFlags_selectedRow, adjustScrollOffset_selectedRow]
    have hact1 : getActiveRows { t with rows := buildRows services } = t.filteredRows := by
      simp [getActiveRows, hf]
    dsimp only
    rw [hact1, if_pos ⟨h0, hltInt⟩, hget]
    have hactB : getActiveRows
        (applyFilters { t with rows := buildRows services } t.filters) =
        (applyFilters { t with rows := buildRows services } t.filters).filteredRows := by
      simp [getActiveRows, applyFilters_filters, hf]
    rw [hactB, restoreSelection_eq _ _ (rowKey_ne_empty selRow),
      findRowIdx_applyFilters_pos _ _ _ (by omega)]
  · intro t services hlen
    unfold setServices at hlen ⊢
    rw [setServicesFlags_selectedRow, adjustScrollOffset_selectedRow]
    rw [getActiveRows_setServicesFlags_length, getActiveRows_adjustScrollOffset,
      getActiveRows_set_selectedRow] at hlen
    dsimp only at hlen ⊢
    rw [List.length_eq_zero.mp hlen]
    exact restoreSelection_nil _

/-- C7 witness: with the `name=alpha` filter active and the `alpha` row
selected, a rebuild that prepends `beta` re-locates the selection to the
`alpha` row of the new filtered sequence (index 0 there). -/
theorem setServices_selection_contract_witness :
    (setServices tableC7 [svcBeta, svcAlpha]).selectedRow = 0 := by
  have h := setServices_selection_contract.1 tableC7 [svcBeta, svcAlpha] rowAlphaDemo
    (by decide) (by decide) (by decide)
  exact h.trans (by decide)

/-- C8 counterexample: `SortBy` with `ascending=false` negates the whole
comparator, so two rows that tie on the `name` field come out ordered by
the *inverted* port tie-break: descending yields `[rowTie2, rowTie1]`,
not the tie-break-preserving `[rowTie1, rowTie2]` the claim requires. -/
theorem sortBy_descending_tiebreak_cex :
    rowTie1.Name = rowTie2.Name ∧ rowTie1.Port < rowTie2.Port ∧
    sortRows "name" true [rowTie1, rowTie2] = [rowTie1, rowTie2] ∧
    sortRows "name" false [rowTie1, rowTie2] = [rowTie2, rowTie1] ∧
    sortRows "name" false [rowTie1, rowTie2] ≠ [rowTie1, rowTie2] := by
  decide

/-- C8 (amended): `ascending=false` negates the entire comparator result,
inverting the documented tie-break order together with the primary field;
consequently, for every row sequence with no ties on the name field,
sorting by name descending yields exactly the reverse of sorting by name
ascending. -/
theorem sortBy_descending_contract :
    (∀ field a b, rowLess field false a b = !(rowLess field true a b)) ∧
    (∀ l : List ServiceTableRow, l.Pairwise (fun a b => a.Name ≠ b.Name) →
      sortRows "name" false l = (sortRows "name" true l).reverse) := by
  constructor
  · intro field a b
    rfl
  · intro l hnames
    have hbrF : ∀ a b, rowLess "name" false a b =
        !decide (sortKey "name" a < sortKey "name" b) := by
      intro a b
      simpa using rowLess_name_bridge false a b
    have hbrT : ∀ a b, rowLess "name" true a b =
        decide (sortKey "name" a < sortKey "name" b) := by
      intro a b
      simpa using rowLess_name_bridge true a b
    have specD : SortSpec (rowLess "name" false)
        (fun a b => !decide (sortKey "name" a < sortKey "name" b)) :=
      SortSpec.congr hbrF (sortSpecOfKeyDesc (sortKey "name"))
    have specA : SortSpec (rowLess "name" true)
        (fun a b => !decide (sortKey "name" b < sortKey "name" a)) :=
      SortSpec.congr hbrT (sortSpecOfKey (sortKey "name"))
    apply eq_of_perm_of_pairwise
      (s := fun a b => !decide (sortKey "name" a < sortKey "name" b))
    · exact (perm_insertionSort _ l).trans
        (((perm_insertionSort (rowLess "name" true) l).symm).trans
          (List.reverse_perm _).symm)
    · exact pairwise_insertionSort specD l
    · rw [List.pairwise_reverse]
      exact pairwise_insertionSort specA l
    · intro a b ha hb hab hba
      have hal : a ∈ l := (perm_insertionSort (rowLess "name" false) l).subset ha
      have hbl : b ∈ l := (perm_insertionSort (rowLess "name" false) l).subset hb
      simp only [Bool.not_eq_true', decide_eq_false_iff_not, not_lt] at hab hba
      have hkey : sortKey "name" a = sortKey "name" b := le_antisymm hba hab
      rw [sortKey_name, sortKey_name] at hkey
      have hname : a.Name = b.Name := by
        have := congrArg (fun x => (ofLex (ofLex x).1).1) hkey
        simpa using this
      exact eq_of_mem_of_name_eq hnames hal hbl hname

/-- C8 witness: reversal on a concrete two-row list with distinct names. -/
theorem sortBy_descending_contract_witness :
    sortRows "name" false [rowTie1, rowZzz] =
      (sortRows "name" true [rowTie1, rowZzz]).reverse :=
  sortBy_descending_contract.2 [rowTie1, rowZzz] (by decide)

/-- C9 counterexample: after `applyFilters({})` and a subsequent
`SortBy`, the stored filtered sequence is stale — `SortBy` re-sorts
`filteredRows` only when a filter is active — so it is not a subsequence
of the sorted full sequence (selection flags disregarded). -/
theorem filtered_sublist_cex :
    ¬ List.Sublist
      ((sortBy (setServices newServiceTable [svcAlpha, svcGamma]) "ports" true).filteredRows.map
        stripSel)
      ((sortBy (setServices newServiceTable [svcAlpha, svcGamma]) "ports" true).rows.map
        stripSel) ∧
    ((sortBy (setServices newServiceTable [svcAlpha, svcGamma]) "ports" true).rows.map
      (fun r => r.Port)) = [2, 80] ∧
    ((sortBy (setServices newServiceTable [svcAlpha, svcGamma]) "ports" true).filteredRows.map
      (fun r => r.Port)) = [80, 2] := by
  refine ⟨fun hsub => ?_, by decide, by decide⟩
  have heq := hsub.eq_of_length (by decide)
  exact absurd (congrArg (List.map (fun r => r.Port)) heq) (by decide)

/-- C9 (amended): after every `applyFilters` the filtered sequence
(selection flags disregarded) is a subsequence of the full sequence in
order; and `sortBy` preserves that subsequence relation whenever a filter
is active (both sequences are re-sorted with the same comparator; in this
deterministic model of `sort.Slice`, and for tie-free comparator keys
independently of the sorting algorithm).  When no filter is active,
`sortBy` leaves the stored filtered list stale (see the counterexample),
but that list is not the active sequence then. -/
theorem filtered_sublist_contract :
    (∀ t filters,
      List.Sublist ((applyFilters t filters).filteredRows.map stripSel)
        ((applyFilters t filters).rows.map stripSel)) ∧
    (∀ t field asc, t.filters.length > 0 →
      List.Sublist (t.filteredRows.map stripSel) (t.rows.map stripSel) →
      List.Sublist ((sortBy t field asc).filteredRows.map stripSel)
        ((sortBy t field asc).rows.map stripSel)) := by
  constructor
  · intro t filters
    obtain ⟨hrows, hfil⟩ := applyFilters_char t filters
    rw [hrows, hfil]
    by_cases h : filters.length = 0
    · rw [if_pos h]
    · rw [if_neg h]
      exact (List.filter_sublist _).map stripSel
  · intro t field asc hf hsub
    obtain ⟨hrows, hfil⟩ := sortBy_rows_filters_pos t field asc hf
    rw [hrows, hfil, strip_sortRows, strip_sortRows]
    obtain ⟨s, spec⟩ := rowLess_sortSpec field asc
    exact insertionSort_sublist_mono spec hsub

/-- C9 witness: the invariant after sorting a concrete filter-active
table. -/
theorem filtered_sublist_contract_witness :
    List.Sublist
      ((sortBy tableFiltered "name" true).filteredRows.map stripSel)
      ((sortBy tableFiltered "name" true).rows.map stripSel) :=
  filtered_sublist_contract.2 tableFiltered "name" true (by decide) (by decide)

end Kpf
